import Mathlib

/-!
Shallow embedding of `src/client/python/gradio_client/client.py` (gradio
Python client): the stream demultiplexer (`Client.stream_messages`), submit
response handling (`Client.send_data`), the endpoint post-processing pipeline
(`Endpoint.process_predictions`, `Endpoint.remove_skipped_components`,
`Endpoint.reduce_singleton_output`), the prediction error classification in
`Endpoint.make_predict`, the legacy cancellation plan in
`Endpoint.make_cancel`, the `Job` handle (`Job.status`, `Job.cancel`,
`Job.result`), and the `Client.predict` / `Client.submit` composition.

Python dicts are modelled as association lists with insert-overwrite
semantics, Python sets as `Finset`, exceptions as explicit error outcomes.
-/

namespace GradioClient

/-- String constants of the `ServerMessage` enum (a `str` Enum in
`gradio_client.utils`, compared against as plain strings in `client.py`). -/
def ServerMessage.heartbeat : String := "heartbeat"

def ServerMessage.server_stopped : String := "server_stopped"

def ServerMessage.close_stream : String := "close_stream"

def ServerMessage.process_completed : String := "process_completed"

/-- A decoded SSE JSON record as read by `Client.stream_messages`:
`msg` is `resp["msg"]` (assumed present, as the code indexes it directly),
`message` models `resp.get("message", ...)` (absent key ↦ `none`),
`event_id` models `resp["event_id"]` (absent key ↦ `none`, and indexing it
raises `KeyError`). -/
structure Msg where
  msg : String
  message : Option String := none
  event_id : Option String := none
deriving DecidableEq

/-- Python exceptions that the modelled fragment can raise. -/
inductive PyErr where
  | keyError (key : String)
  | valueError (text : String)
  | indexError (text : String)
deriving DecidableEq

/-- The mutable state of `Client` touched by `stream_messages`:
`pending_messages_per_event : dict[str, list[Message | None]]` as an
association list (dict insertion order), `pending_event_ids : set[str]` as a
`Finset`, and the `stream_open` flag. -/
structure StreamState where
  pending_messages_per_event : List (String × List (Option Msg))
  pending_event_ids : Finset String
  stream_open : Bool
deriving DecidableEq

/-- Python `k in d` for the association-list dict. -/
def alContains (d : List (String × List (Option Msg))) (k : String) : Bool :=
  d.any (fun p => p.1 = k)

/-- Python `d[k].append(v)` for the association-list dict. -/
def alAppend (d : List (String × List (Option Msg))) (k : String)
    (v : Option Msg) : List (String × List (Option Msg)) :=
  d.map (fun p => if p.1 = k then (p.1, p.2 ++ [v]) else p)

/-- Python `d.get(k)` for the association-list dict. -/
def alGet (d : List (String × List (Option Msg))) (k : String) :
    Option (List (Option Msg)) :=
  (d.find? (fun p => p.1 = k)).map (fun p => p.2)

/-- Outcome of handling one decoded record inside the `stream_messages`
read loop: continue looping, return from the function (the stream ends), or
propagate a raised exception.  Each outcome carries the state as mutated up
to that point. -/
inductive StepResult where
  | cont (s : StreamState)
  | ret (s : StreamState)
  | exn (s : StreamState) (e : PyErr)
deriving DecidableEq

/-- The state carried by a `StepResult`. -/
def StepResult.state : StepResult → StreamState
  | .cont s => s
  | .ret s => s
  | .exn s _ => s

/-- The tail of the job-message branch of `stream_messages` (lines 292-297):
after a job message was delivered, close the stream and return when no ids
are awaiting and the protocol is not `sse_v3`. -/
def checkDrainClose (protocol : String) (s : StreamState) : StepResult :=
  if s.pending_event_ids = ∅ ∧ protocol ≠ "sse_v3" then
    .ret { s with stream_open := false }
  else
    .cont s

/-- One iteration of the `stream_messages` record loop (lines 270-297) on a
decoded `data:` JSON record `resp`, faithful to the source branch order:
`resp["msg"] == heartbeat` → continue; `resp.get("message", "") ==
server_stopped` → append `resp` to every per-event inbox and return;
`resp["msg"] == close_stream` → clear `stream_open` and return; otherwise
deliver to the inbox keyed by `resp["event_id"]` (creating it if missing), drop the id
from `pending_event_ids` when the msg is `process_completed` (a miss raises
`KeyError`, as `set.remove` does), then apply the drain-close rule. -/
def processMessage (protocol : String) (s : StreamState) (resp : Msg) :
    StepResult :=
  if resp.msg = ServerMessage.heartbeat then
    .cont s
  else if resp.message.getD "" = ServerMessage.server_stopped then
    .ret { s with pending_messages_per_event :=
      s.pending_messages_per_event.map (fun p => (p.1, p.2 ++ [some resp])) }
  else if resp.msg = ServerMessage.close_stream then
    .ret { s with stream_open := false }
  else
    match resp.event_id with
    | none => .exn s (.keyError "event_id")
    | some event_id =>
      let d0 := s.pending_messages_per_event
      let d1 := if alContains d0 event_id then d0 else d0 ++ [(event_id, [])]
      let d2 := alAppend d1 event_id (some resp)
      let s1 : StreamState := { s with pending_messages_per_event := d2 }
      if resp.msg = ServerMessage.process_completed then
        if event_id ∈ s1.pending_event_ids then
          checkDrainClose protocol
            { s1 with pending_event_ids := s1.pending_event_ids.erase event_id }
        else
          .exn s1 (.keyError event_id)
      else
        checkDrainClose protocol s1

/-- Outcome of the status-code handling in `Client.send_data`
(lines 315-327): HTTP 503 raises `QueueError`, any other non-2xx status
raises `httpx.HTTPStatusError` via `raise_for_status()`, and a success
response yields `resp["event_id"]`. -/
inductive SubmitOutcome where
  | ok (event_id : String)
  | queueFull (text : String)
  | httpStatusError (status_code : Nat)
deriving DecidableEq

/-- The response classification of `Client.send_data`: the submit POST
returned `status_code`; on success the body carries `event_id`. -/
def send_data_response (status_code : Nat) (event_id : String) :
    SubmitOutcome :=
  if status_code = 503 then
    .queueFull "Queue is full! Please try again."
  else if 200 ≤ status_code ∧ status_code ≤ 299 then
    .ok event_id
  else
    .httpStatusError status_code

/-- The `Status` enumeration of `gradio_client.utils`, the codes a
`StatusUpdate` can carry. -/
inductive Status where
  | starting
  | joined_queue
  | progress
  | processing
  | iterating
  | finished
  | cancelled
deriving DecidableEq

/-- The `StatusUpdate` record returned by `Job.status` (fields `code`,
`rank`, `queue_size`, `success`, `time`, `eta`, `progress_data`); `time`
is abstracted to a caller-supplied clock value, `eta` to a natural number
of seconds, and `progress_data` to an opaque optional payload. -/
structure StatusUpdate where
  code : Status
  rank : Option Int
  queue_size : Option Nat
  success : Option Bool
  time : Nat
  eta : Option Nat
  progress_data : Option Unit
deriving DecidableEq

/-- The backing `concurrent.futures.Future` of a `Job`, as observed by
`Job.status` and `Job.cancel`: whether it is done, whether `_exception`
is set, and whether work has started (a `Future.cancel()` can only
succeed before the work starts). -/
structure FutureModel where
  done : Bool
  has_exception : Bool
  started : Bool
deriving DecidableEq

/-- The slice of the `Communicator` that `Job.status` and `Job.cancel`
read and write under its lock: the `should_cancel` flag and the
`job.latest_status` record. -/
structure CommunicatorModel where
  should_cancel : Bool
  latest_status : StatusUpdate
deriving DecidableEq

/-- A `Job` handle: the backing future, the optional communicator, and
whether a `_cancel_fn` was installed. -/
structure JobModel where
  future : FutureModel
  communicator : Option CommunicatorModel
  has_cancel_fn : Bool
deriving DecidableEq

/-- Model of `Job.status` (lines 1648-1702): the cancellation flag is consulted
first; then a done future synthesizes FINISHED with `success` reflecting
the absence of a captured exception; then a missing communicator yields a
generic PROCESSING; otherwise the latest status recorded by the communicator is
returned.  `now` stands for `datetime.now()`. -/
def Job.status (j : JobModel) (now : Nat) : StatusUpdate :=
  let cancelled :=
    match j.communicator with
    | some c => c.should_cancel
    | none => false
  if cancelled then
    { code := .cancelled, rank := some 0, queue_size := none,
      success := some false, time := now, eta := none, progress_data := none }
  else if j.future.done then
    if !j.future.has_exception then
      { code := .finished, rank := some 0, queue_size := none,
        success := some true, time := now, eta := none, progress_data := none }
    else
      { code := .finished, rank := some 0, queue_size := none,
        success := some false, time := now, eta := none, progress_data := none }
  else
    match j.communicator with
    | none =>
      { code := .processing, rank := some 0, queue_size := none,
        success := none, time := now, eta := none, progress_data := none }
    | some c => c.latest_status

/-- Model of `Job.cancel` (lines 1704-1725): with a communicator, set
`should_cancel`, invoke the cancel sub-protocol, and return `true`
unconditionally; without one, delegate to `Future.cancel()` (which
succeeds only if the work has not started). Returns the updated job and
the boolean result. -/
def Job.cancel (j : JobModel) : JobModel × Bool :=
  match j.communicator with
  | some c =>
    ({ j with communicator := some { c with should_cancel := true } }, true)
  | none => (j, !j.future.started && !j.future.done)

/-- The dataclass `ComponentApiType` (lines 1123-1127): per-slot tags of an endpoint
descriptor. -/
structure ComponentApiType where
  skip : Bool
  value_is_file : Bool
  is_state : Bool
deriving DecidableEq

/-- Result shape of `Endpoint.reduce_singleton_output`: either the bare
single value or the ordered tuple. -/
inductive Reduced (α : Type) where
  | single (a : α)
  | tuple (l : List α)
deriving DecidableEq

/-- Model of `Endpoint.remove_skipped_components` (lines 1389-1396): keep the
values whose zipped output component type is not tagged `skip`
(`zip(..., strict=False)` truncates to the shorter list, as `List.zip`
does). -/
def remove_skipped_components (octs : List ComponentApiType)
    (data : List α) : List α :=
  ((data.zip octs).filter (fun p => !p.2.skip)).map (fun p => p.1)

/-- Model of `Endpoint.reduce_singleton_output` (lines 1398-1408): count the
effective output components (non-skip ones when `client._skip_components`
is set, all of them otherwise); if that count is 1 return `data[0]`
(an `IndexError` if `data` is empty), else return the tuple. -/
def reduce_singleton_output (octs : List ComponentApiType)
    (skip_components : Bool) (data : List α) : Except PyErr (Reduced α) :=
  let effective_output_components :=
    if skip_components then octs.filter (fun o => !o.skip) else octs
  if effective_output_components.length = 1 then
    match data with
    | [] => .error (.indexError "tuple index out of range")
    | d :: _ => .ok (.single d)
  else
    .ok (.tuple data)

/-- Model of `Endpoint.process_predictions` (lines 1368-1377): optionally download
files (`client.download_files`; the recursive `utils.traverse` rewrite is
abstracted to a per-slot value transformation `dl`, which preserves the
tuple arity as `traverse` does), optionally drop skipped slots
(`client._skip_components`), then reduce a singleton output. -/
def process_predictions (octs : List ComponentApiType)
    (download_files : Bool) (skip_components : Bool) (dl : α → α)
    (predictions : List α) : Except PyErr (Reduced α) :=
  let d1 := if download_files then predictions.map dl else predictions
  let d2 := if skip_components then remove_skipped_components octs d1 else d1
  reduce_singleton_output octs skip_components d2

/-- Errors that the result handling of `Endpoint.make_predict` can raise. -/
inductive PredictFailure where
  | appError (message : String)
  | keyErrorData
deriving DecidableEq

/-- The generic `AppError` message used when the server omits diagnostic
detail (lines 1320-1323). -/
def verboseErrorText : String :=
  "The upstream Gradio app has raised an exception but has not enabled verbose error reporting. To enable, set show_error=True in launch()."

/-- The terminal result object of a prediction as consumed by
`make_predict` (lines 1318-1346): an optional `error` key whose value may
be null (`some none`) or a message (`some (some m)`), and an optional
`data` key. -/
structure PredictRawResult (α : Type) where
  error : Option (Option String)
  data : Option (List α)
deriving DecidableEq

/-- The tail of `Endpoint.make_predict._predict` (lines 1318-1346): an
`error` key raises `AppError` — with the generic verbose-reporting message
when its value is null, with the server-supplied message otherwise —
before any `data` access; absent that, a missing `data` key raises
`KeyError` (the nested 429 checks are unreachable there since an `error`
key would already have raised), and otherwise the ordered output tuple is
returned. -/
def classify_prediction_result (r : PredictRawResult α) :
    Except PredictFailure (List α) :=
  match r.error with
  | some none => .error (.appError verboseErrorText)
  | some (some m) => .error (.appError m)
  | none =>
    match r.data with
    | some d => .ok d
    | none => .error .keyErrorData

/-- The `api_name` entry of a dependency in the app config: absent/null,
literally `False` (endpoint disabled), or a name string. -/
inductive ApiNameV where
  | noneV
  | falseV
  | nameV (s : String)
deriving DecidableEq

/-- One entry of `config["dependencies"]`, restricted to the keys the
modelled code reads: optional stable `id`, `api_name`, the `cancels`
index list, and the `backend_fn` / `show_api` keys (`none` = key absent
or null). -/
structure Dependency where
  id : Option Nat := none
  api_name : ApiNameV := .noneV
  cancels : List Nat := []
  backend_fn : Option Bool := some true
  show_api : Option Bool := some true
deriving DecidableEq

/-- The candidate scan of the legacy branch of `Endpoint.make_cancel`
(lines 1240-1245): enumerate the dependencies from position `i`
upward and collect `(index, other cancelled indices)` for every
dependency whose `cancels` list contains the `fn_index` of this endpoint. -/
def cancel_candidates_from (fn_index : Nat) (i : Nat) :
    List Dependency → List (Nat × List Nat)
  | [] => []
  | dep :: rest =>
    if fn_index ∈ dep.cancels then
      (i, dep.cancels.filter (fun d => d ≠ fn_index)) ::
        cancel_candidates_from fn_index (i + 1) rest
    else
      cancel_candidates_from fn_index (i + 1) rest

/-- The `candidates` list as computed by the legacy branch of `make_cancel` over
the whole dependency list. -/
def cancel_candidates (deps : List Dependency) (fn_index : Nat) :
    List (Nat × List Nat) :=
  cancel_candidates_from fn_index 0 deps

/-- The Python expression `min(candidates, key=lambda x: len(x[1]))`: the first
element whose key is minimal (`foldl` with a strict comparison keeps the
earlier element on ties, as `min` does). -/
def pyMinByOthersLen (x : Nat × List Nat) (xs : List (Nat × List Nat)) :
    Nat × List Nat :=
  xs.foldl (fun acc y => if y.2.length < acc.2.length then y else acc) x

/-- What one invocation of the `_cancel` closure built by the legacy
branch of `make_cancel` does: whether it issues `warnings.warn`, and to
which dependency index it POSTs (`none` = no network request). -/
structure CancelPlan where
  cancellable : Bool
  target_fn_index : Option Nat
  warns : Bool
deriving DecidableEq

/-- The legacy (`app_version <= 4.29.0`) branch of `Endpoint.make_cancel`
(lines 1239-1290): pick among the dependencies that cancel this
`fn_index` the one cancelling the fewest others; when none exists the
returned `_cancel` only warns and performs no POST; when the chosen
dependency also cancels other indices, `_cancel` warns about them before
POSTing. -/
def make_cancel_old (deps : List Dependency) (fn_index : Nat) : CancelPlan :=
  match cancel_candidates deps fn_index with
  | [] => { cancellable := false, target_fn_index := none, warns := true }
  | x :: xs =>
    let chosen := pyMinByOthersLen x xs
    { cancellable := true, target_fn_index := some chosen.1,
      warns := chosen.2 ≠ [] }

/-- An error surfaced by `Client.predict` / `Client.submit` + `Job.result`:
either a configuration error raised synchronously (modelled by its
message) or a prediction failure re-raised by `Job.result`. -/
inductive ClientFailure where
  | config (text : String)
  | remote (f : PredictFailure)
deriving DecidableEq

/-- The slice of a `Client` that `predict`, `submit` and
`_infer_fn_index` depend on: the dependency list of the config and the
end-to-end endpoint computation (`make_end_to_end_fn` composed with the
network exchange and `process_predictions`), as executed for a given
endpoint key, argument list and per-request headers. -/
structure ClientModel (α β : Type) where
  dependencies : List Dependency
  run_endpoint : Nat → List α → Option (List (String × String)) →
    Except PredictFailure β

/-- The key of a dependency in `Client.endpoints`
(`dependency.get("id", fn_index)`, line 193). -/
def dependencyKey (i : Nat) (dep : Dependency) : Nat := dep.id.getD i

/-- The dict `self.endpoints` (lines 192-197): a dict comprehension keyed by
`dependencyKey`; a duplicate key overwrites the earlier value in place. -/
def dictInsert (d : List (Nat × Dependency)) (k : Nat) (v : Dependency) :
    List (Nat × Dependency) :=
  if d.any (fun p => p.1 = k) then
    d.map (fun p => if p.1 = k then (k, v) else p)
  else
    d ++ [(k, v)]

/-- The `Client.endpoints` dict as an association list. -/
def endpointsDict (deps : List Dependency) : List (Nat × Dependency) :=
  (deps.enum.foldl (fun acc p => dictInsert acc (dependencyKey p.1 p.2) p.2)
    [])

/-- Validity flag `Endpoint.is_valid` (line 1160): the api name is not literally
`False`. -/
def depIsValid (dep : Dependency) : Bool := dep.api_name ≠ ApiNameV.falseV

/-- Model of `Client._infer_fn_index` (lines 851-888): with an `api_name`, the
first dependency whose `"/" + api_name` matches yields its key (else a
`ValueError`); with an `fn_index`, it must be a key of `endpoints` whose
endpoint is valid; with neither, there must be exactly one valid, named,
backend-backed, shown endpoint. -/
def infer_fn_index (cl : ClientModel α β) (api_name : Option String)
    (fn_index : Option Nat) : Except String Nat :=
  match api_name with
  | some an =>
    match cl.dependencies.enum.find? (fun p =>
        match p.2.api_name with
        | .nameV s => "/" ++ s = an
        | _ => false) with
    | some p => .ok (dependencyKey p.1 p.2)
    | none => .error ("Cannot find a function with api_name: " ++ an)
  | none =>
    match fn_index with
    | some fi =>
      match (endpointsDict cl.dependencies).find? (fun p => p.1 = fi) with
      | some p => if depIsValid p.2 then .ok fi else .error "Invalid function index."
      | none => .error "Invalid function index."
    | none =>
      match (endpointsDict cl.dependencies).filter (fun p =>
          depIsValid p.2 ∧ p.2.api_name ≠ ApiNameV.noneV ∧
          p.2.backend_fn.isSome ∧ p.2.show_api = some true) with
      | [p] => .ok p.1
      | _ => .error "This Gradio app might have multiple endpoints."

/-- The `Job` returned by `Client.submit`, reduced to what `Job.result`
observes once the worker thread finishes: the captured outcome of the
end-to-end function. -/
structure SubmittedJob (β : Type) where
  outcome : Except PredictFailure β

/-- Model of `Job.result` with no timeout (lines 1587-1602, deferring to
`Future.result`): return the captured value or re-raise the captured
exception. -/
def SubmittedJob.result (job : SubmittedJob β) : Except ClientFailure β :=
  match job.outcome with
  | .ok v => .ok v
  | .error f => .error (.remote f)

/-- Model of `Client.submit` (lines 510-591): infer the endpoint key (raising
configuration errors synchronously), then hand the end-to-end function to
the executor; the outcome of the resulting `Job` is the result of that
result. -/
def Client.submit (cl : ClientModel α β) (args : List α)
    (api_name : Option String) (fn_index : Option Nat)
    (hdrs : Option (List (String × String))) :
    Except String (SubmittedJob β) :=
  match infer_fn_index cl api_name fn_index with
  | .error e => .error e
  | .ok idx => .ok { outcome := cl.run_endpoint idx args hdrs }

/-- Model of `Client.predict` (lines 469-497): run `_infer_fn_index` for early
validation, then return `self.submit(...).result()`. -/
def Client.predict (cl : ClientModel α β) (args : List α)
    (api_name : Option String) (fn_index : Option Nat)
    (hdrs : Option (List (String × String))) : Except ClientFailure β :=
  match infer_fn_index cl api_name fn_index with
  | .error e => .error (.config e)
  | .ok _ =>
    match Client.submit cl args api_name fn_index hdrs with
    | .error e => .error (.config e)
    | .ok job => job.result

/-- The composition the claim compares `predict` against: `submit` with
the same arguments followed by `Job.result()` with no timeout, raised
errors propagated unchanged. -/
def submit_then_result (cl : ClientModel α β) (args : List α)
    (api_name : Option String) (fn_index : Option Nat)
    (hdrs : Option (List (String × String))) : Except ClientFailure β :=
  match Client.submit cl args api_name fn_index hdrs with
  | .error e => .error (.config e)
  | .ok job => job.result

/-- A quiescent latest-status record, used by concrete examples. -/
def idleStatus : StatusUpdate :=
  { code := .processing, rank := none, queue_size := none, success := none,
    time := 0, eta := none, progress_data := none }

/-- A job whose backing computation has completed successfully and whose
communicator has not been asked to cancel. -/
def finishedOkJob : JobModel :=
  { future := { done := true, has_exception := false, started := true },
    communicator := some { should_cancel := false, latest_status := idleStatus },
    has_cancel_fn := true }

/-- A demultiplexer state with a single registered job `e1`, awaiting its
terminal message, with an open stream and an empty inbox. -/
def sampleStreamState : StreamState :=
  { pending_messages_per_event := [("e1", [])],
    pending_event_ids := {"e1"},
    stream_open := true }

/-- A record whose `msg` discriminator is `server_stopped` but whose
`message` key is absent. -/
def serverStoppedByMsg : Msg := { msg := "server_stopped" }

/-- The terminal message for job `e1`. -/
def terminalMsgE1 : Msg :=
  { msg := "process_completed", event_id := some "e1" }

/-- A concrete client with one dependency (a valid named endpoint at key
0) whose end-to-end computation returns the argument count. -/
def sampleClient : ClientModel Nat Nat :=
  { dependencies := [{ api_name := .nameV "predict" }],
    run_endpoint := fun _ args _ => .ok args.length }

/-- A record classified as server-stopped by its `message` field. -/
def serverStoppedByMessageField : Msg :=
  { msg := "unexpected_error", message := some "server_stopped" }

/-- A concrete dependency list: dependency 1 cancels endpoints 0 and 2,
dependency 2 cancels endpoint 0 alone. -/
def sampleDeps : List Dependency :=
  [{ cancels := [] }, { cancels := [0, 2] }, { cancels := [0] }]

end GradioClient

namespace GradioClient

/-- The helper `checkDrainClose` never changes the awaiting set. -/
theorem checkDrainClose_state_pending (protocol : String) (s : StreamState) :
    ((checkDrainClose protocol s).state).pending_event_ids =
      s.pending_event_ids := by
  unfold checkDrainClose
  split <;> rfl

/-- C10: for every argument list, api_name, fn_index and headers,
`Client.predict` returns (or raises) exactly what `Client.submit` with the
same arguments followed by `Job.result()` with no timeout returns (or
raises): predict is the blocking composition of submit and result. -/
theorem predict_is_submit_then_result (cl : ClientModel α β) (args : List α)
    (api_name : Option String) (fn_index : Option Nat)
    (hdrs : Option (List (String × String))) :
    Client.predict cl args api_name fn_index hdrs =
      submit_then_result cl args api_name fn_index hdrs := by
  unfold Client.predict submit_then_result Client.submit
  cases infer_fn_index cl api_name fn_index <;> rfl

/-- C6: a submit POST answered with HTTP 503 raises `QueueError` (a
distinct constructor), while any other non-2xx status raises the generic
`HTTPStatusError`; the two are distinguishable by type. -/
theorem queue_full_distinct_error (status_code : Nat) (event_id : String) :
    (status_code = 503 →
      send_data_response status_code event_id =
        .queueFull "Queue is full! Please try again.") ∧
    (status_code ≠ 503 → ¬(200 ≤ status_code ∧ status_code ≤ 299) →
      send_data_response status_code event_id =
        .httpStatusError status_code) ∧
    (∀ t c, SubmitOutcome.queueFull t ≠ SubmitOutcome.httpStatusError c) := by
  refine ⟨?_, ?_, ?_⟩
  · intro h
    simp [send_data_response, h]
  · intro h1 h2
    simp [send_data_response, h1, h2]
  · intro t c h
    cases h

/-- C6 witness: HTTP 503 at a concrete input yields the queue-full error,
and 500 yields the generic status error. -/
theorem queue_full_distinct_error_witness :
    send_data_response 503 "e1" = .queueFull "Queue is full! Please try again." ∧
    send_data_response 500 "e1" = .httpStatusError 500 :=
  ⟨(queue_full_distinct_error 503 "e1").1 rfl,
   (queue_full_distinct_error 500 "e1").2.1 (by decide) (by decide)⟩

/-- C8: a terminal result carrying an `error` key raises `AppError` — the
server-supplied message when the value is non-null, the generic
verbose-error-reporting message when it is null — and the outcome does not
depend on the `data` key in either case. -/
theorem app_error_on_error_field (r : PredictRawResult α) (e : Option String)
    (h : r.error = some e) :
    classify_prediction_result r =
      .error (.appError (e.getD verboseErrorText)) ∧
    (∀ d, classify_prediction_result { r with data := d } =
      classify_prediction_result r) := by
  obtain ⟨er, da⟩ := r
  simp only [PredictRawResult.mk.injEq] at h ⊢
  subst h
  cases e <;> simp [classify_prediction_result]

/-- C8 witness: a concrete result with a null error value raises the
generic message, independently of its data payload. -/
theorem app_error_on_error_field_witness :
    ({ error := some none, data := some [7] } : PredictRawResult Nat).error =
      some none ∧
    (classify_prediction_result
        ({ error := some none, data := some [7] } : PredictRawResult Nat) =
      .error (.appError verboseErrorText) ∧
    (∀ d, classify_prediction_result
        ({ error := some none, data := d } : PredictRawResult Nat) =
      classify_prediction_result
        ({ error := some none, data := some [7] } : PredictRawResult Nat))) :=
  ⟨rfl, app_error_on_error_field
    ({ error := some none, data := some [7] } : PredictRawResult Nat) none rfl⟩

/-- C4: for every Job with a Communicator, once `cancel()` has returned
(it returns `true`), every subsequent `status()` — whatever the backing
future now looks like, captured by quantifying over every job state whose
communicator is the post-cancel one — reports CANCELLED with
`success = false`. -/
theorem status_after_cancel_is_cancelled (j : JobModel)
    (c : CommunicatorModel) (h : j.communicator = some c) (j2 : JobModel)
    (h2 : j2.communicator = (Job.cancel j).1.communicator) (now : Nat) :
    (Job.status j2 now).code = Status.cancelled ∧
    (Job.status j2 now).success = some false ∧
    (Job.cancel j).2 = true := by
  unfold Job.cancel at h2 ⊢
  rw [h] at h2 ⊢
  simp only at h2
  unfold Job.status
  rw [h2]
  simp

/-- C4 witness: cancelling the concrete finished job makes a later
`status()` on a job with the same communicator and a completed future
report CANCELLED. -/
theorem status_after_cancel_is_cancelled_witness :
    finishedOkJob.communicator =
      some { should_cancel := false, latest_status := idleStatus } ∧
    ({ finishedOkJob with
        communicator := (Job.cancel finishedOkJob).1.communicator
        : JobModel }).communicator =
      (Job.cancel finishedOkJob).1.communicator ∧
    ((Job.status { finishedOkJob with
        communicator := (Job.cancel finishedOkJob).1.communicator } 5).code =
      Status.cancelled ∧
    (Job.status { finishedOkJob with
        communicator := (Job.cancel finishedOkJob).1.communicator } 5).success =
      some false ∧
    (Job.cancel finishedOkJob).2 = true) :=
  ⟨rfl, rfl, status_after_cancel_is_cancelled finishedOkJob
    { should_cancel := false, latest_status := idleStatus } rfl _ rfl 5⟩

/-- C5 counterexample: a Job whose backing computation already finished
successfully reports FINISHED, but after a later `cancel()` its `status()`
reports CANCELLED — the FINISHED result is retracted, contradicting the
claim that CANCELLED is unreachable after FINISHED. -/
theorem cancel_after_finished_reports_cancelled :
    (Job.status finishedOkJob 0).code = Status.finished ∧
    (Job.status finishedOkJob 0).success = some true ∧
    (Job.status (Job.cancel finishedOkJob).1 1).code = Status.cancelled ∧
    (Job.status (Job.cancel finishedOkJob).1 1).success = some false := by
  decide

/-- C5 (amended): for a Job with a Communicator, `status()` reports
FINISHED once the backing future is done and no cancel was requested, but
a later `cancel()` retracts it: the cancellation flag takes precedence and
`status()` thereafter reports CANCELLED even though the computation had
already finished. -/
theorem cancel_flag_overrides_finished (j : JobModel)
    (c : CommunicatorModel) (h : j.communicator = some c)
    (hc : c.should_cancel = false) (hd : j.future.done = true) (now : Nat) :
    (Job.status j now).code = Status.finished ∧
    (Job.status (Job.cancel j).1 now).code = Status.cancelled := by
  constructor
  · unfold Job.status
    rw [h]
    simp only [hc, hd]
    cases hx : j.future.has_exception <;> simp [hx]
  · unfold Job.cancel Job.status
    rw [h]
    simp

/-- C5 witness: the amended statement applied to the concrete finished
job. -/
theorem cancel_flag_overrides_finished_witness :
    finishedOkJob.communicator =
      some { should_cancel := false, latest_status := idleStatus } ∧
    ((Job.status finishedOkJob 3).code = Status.finished ∧
     (Job.status (Job.cancel finishedOkJob).1 3).code = Status.cancelled) :=
  ⟨rfl, cancel_flag_overrides_finished finishedOkJob
    { should_cancel := false, latest_status := idleStatus } rfl rfl rfl 3⟩

/-- Unfolding `remove_skipped_components` one slot at a time. -/
theorem remove_skipped_components_cons (o : ComponentApiType)
    (os : List ComponentApiType) (d : α) (ds : List α) :
    remove_skipped_components (o :: os) (d :: ds) =
      if o.skip then remove_skipped_components os ds
      else d :: remove_skipped_components os ds := by
  by_cases h : o.skip <;> simp [remove_skipped_components, h]

/-- When the data covers every output slot, skip-filtering leaves as many
values as there are non-skipped slots. -/
theorem remove_skipped_components_length (octs : List ComponentApiType)
    (data : List α) (h : data.length = octs.length) :
    (remove_skipped_components octs data).length =
      (octs.filter (fun o => !o.skip)).length := by
  induction octs generalizing data with
  | nil =>
    cases data with
    | nil => rfl
    | cons d ds => simp at h
  | cons o os ih =>
    cases data with
    | nil => simp at h
    | cons d ds =>
      simp only [List.length_cons, Nat.succ.injEq] at h
      rw [remove_skipped_components_cons]
      by_cases hs : o.skip <;>
        simp [hs, List.filter, ih ds h]

/-- C3: after optional download and optional skip-filtering, the result is
reduced against the effective slot count N (non-skipped slots when
skip-filtering is enabled, all slots otherwise): the effective value list
has length N; if N = 1 the bare first value is returned, otherwise the
ordered tuple of length N — identically whether or not skip-filtering is
enabled. -/
theorem reduction_rule_effective_slots (octs : List ComponentApiType)
    (download_files skip_components : Bool) (dl : α → α) (data : List α)
    (h : data.length = octs.length) :
    ((if skip_components then
        remove_skipped_components octs
          (if download_files then data.map dl else data)
      else (if download_files then data.map dl else data)).length =
      (if skip_components then octs.filter (fun o => !o.skip)
        else octs).length) ∧
    ((if skip_components then octs.filter (fun o => !o.skip)
        else octs).length = 1 →
      ∃ v, (if skip_components then
          remove_skipped_components octs
            (if download_files then data.map dl else data)
        else (if download_files then data.map dl else data)) = [v] ∧
        process_predictions octs download_files skip_components dl data =
          .ok (.single v)) ∧
    ((if skip_components then octs.filter (fun o => !o.skip)
        else octs).length ≠ 1 →
      process_predictions octs download_files skip_components dl data =
        .ok (.tuple (if skip_components then
          remove_skipped_components octs
            (if download_files then data.map dl else data)
        else (if download_files then data.map dl else data)))) := by
  have h1 : (if download_files then data.map dl else data).length =
      octs.length := by
    cases download_files <;> simp [h]
  have hlen : (if skip_components then
      remove_skipped_components octs
        (if download_files then data.map dl else data)
    else (if download_files then data.map dl else data)).length =
      (if skip_components then octs.filter (fun o => !o.skip)
        else octs).length := by
    cases skip_components with
    | true =>
      simpa using remove_skipped_components_length octs _ h1
    | false => simpa using h1
  refine ⟨hlen, ?_, ?_⟩
  · intro hN
    rw [hN] at hlen
    obtain ⟨v, hv⟩ := List.length_eq_one.mp hlen
    refine ⟨v, hv, ?_⟩
    simp only [process_predictions, reduce_singleton_output, hv, hN,
      if_true, reduceIte]
  · intro hN
    simp only [process_predictions, reduce_singleton_output, if_neg hN]

/-- C3 witness: a two-slot endpoint with one skipped slot, skip-filtering
enabled: N = 1 and the bare first non-skipped value is returned. -/
theorem reduction_rule_effective_slots_witness :
    ([(3 : Nat), 4].length =
      ([{ skip := true, value_is_file := false, is_state := true },
        { skip := false, value_is_file := false, is_state := false }] :
        List ComponentApiType).length) ∧
    process_predictions
      [{ skip := true, value_is_file := false, is_state := true },
       { skip := false, value_is_file := false, is_state := false }]
      false true (fun n => n) [(3 : Nat), 4] = .ok (.single 4) := by
  refine ⟨by decide, ?_⟩
  obtain ⟨v, hv, hp⟩ := (reduction_rule_effective_slots
    [{ skip := true, value_is_file := false, is_state := true },
     { skip := false, value_is_file := false, is_state := false }]
    false true (fun n => n) [(3 : Nat), 4] (by decide)).2.1 (by decide)
  have hv4 : v = 4 := by
    have := hv
    simp [remove_skipped_components] at this
    omega
  rw [hv4] at hp
  exact hp

/-- One step of the Python `min(..., key=len∘snd)` fold. -/
theorem pyMinByOthersLen_cons (x y : Nat × List Nat)
    (ys : List (Nat × List Nat)) :
    pyMinByOthersLen x (y :: ys) =
      pyMinByOthersLen (if y.2.length < x.2.length then y else x) ys := rfl

/-- The picked minimum is one of the candidates. -/
theorem pyMinByOthersLen_mem (xs : List (Nat × List Nat)) :
    ∀ x, pyMinByOthersLen x xs ∈ x :: xs := by
  induction xs with
  | nil => intro x; simp [pyMinByOthersLen]
  | cons y ys ih =>
    intro x
    rw [pyMinByOthersLen_cons]
    by_cases hlt : y.2.length < x.2.length
    · rw [if_pos hlt]
      rcases List.mem_cons.mp (ih y) with h | h
      · rw [h]; exact List.mem_cons_of_mem _ (List.mem_cons_self _ _)
      · exact List.mem_cons_of_mem _ (List.mem_cons_of_mem _ h)
    · rw [if_neg hlt]
      rcases List.mem_cons.mp (ih x) with h | h
      · rw [h]; exact List.mem_cons_self _ _
      · exact List.mem_cons_of_mem _ (List.mem_cons_of_mem _ h)

/-- The picked minimum cancels no more other dependencies than any
candidate. -/
theorem pyMinByOthersLen_le (xs : List (Nat × List Nat)) :
    ∀ x, ∀ p ∈ x :: xs, (pyMinByOthersLen x xs).2.length ≤ p.2.length := by
  induction xs with
  | nil =>
    intro x p hp
    simp only [List.mem_singleton] at hp
    subst hp
    exact Nat.le_refl _
  | cons y ys ih =>
    intro x p hp
    rw [pyMinByOthersLen_cons]
    have hzx : (if y.2.length < x.2.length then y else x).2.length ≤
        x.2.length := by
      by_cases hlt : y.2.length < x.2.length
      · simp only [if_pos hlt]
        exact Nat.le_of_lt hlt
      · simp only [if_neg hlt]
        exact Nat.le_refl _
    have hzy : (if y.2.length < x.2.length then y else x).2.length ≤
        y.2.length := by
      by_cases hlt : y.2.length < x.2.length
      · simp only [if_pos hlt]
        exact Nat.le_refl _
      · simp only [if_neg hlt]
        omega
    have hself := ih (if y.2.length < x.2.length then y else x)
      (if y.2.length < x.2.length then y else x) (List.mem_cons_self _ _)
    rcases List.mem_cons.mp hp with rfl | hp2
    · exact Nat.le_trans hself hzx
    rcases List.mem_cons.mp hp2 with rfl | hp3
    · exact Nat.le_trans hself hzy
    · exact ih _ p (List.mem_cons_of_mem _ hp3)

/-- Every produced candidate comes from a dependency that declares
`fn_index` in its `cancels` list, at the enumerated position. -/
theorem cancel_candidates_from_spec (fn_index : Nat)
    (deps : List Dependency) :
    ∀ i p, p ∈ cancel_candidates_from fn_index i deps →
      ∃ k dep, deps[k]? = some dep ∧ p.1 = i + k ∧
        fn_index ∈ dep.cancels ∧
        p.2 = dep.cancels.filter (fun d => d ≠ fn_index) := by
  induction deps with
  | nil => intro i p hp; simp [cancel_candidates_from] at hp
  | cons dep rest ih =>
    intro i p hp
    unfold cancel_candidates_from at hp
    by_cases hm : fn_index ∈ dep.cancels
    · rw [if_pos hm] at hp
      rcases List.mem_cons.mp hp with rfl | hp2
      · exact ⟨0, dep, by simp, by omega, hm, rfl⟩
      · obtain ⟨k, d2, hg, hi, hmm, ho⟩ := ih (i + 1) p hp2
        exact ⟨k + 1, d2, by simpa using hg, by omega, hmm, ho⟩
    · rw [if_neg hm] at hp
      obtain ⟨k, d2, hg, hi, hmm, ho⟩ := ih (i + 1) p hp
      exact ⟨k + 1, d2, by simpa using hg, by omega, hmm, ho⟩

/-- The candidate list is empty exactly when no dependency cancels
`fn_index`. -/
theorem cancel_candidates_from_nil_iff (fn_index : Nat)
    (deps : List Dependency) :
    ∀ i, cancel_candidates_from fn_index i deps = [] ↔
      ∀ dep ∈ deps, fn_index ∉ dep.cancels := by
  induction deps with
  | nil => intro i; simp [cancel_candidates_from]
  | cons dep rest ih =>
    intro i
    unfold cancel_candidates_from
    by_cases hm : fn_index ∈ dep.cancels <;> simp [hm, ih (i + 1)]

/-- C9: on servers not newer than 4.29.0, cancellation targets whichever
other dependency declares the index of this endpoint in its `cancels` list,
choosing among candidates one cancelling the fewest other dependencies;
when no dependency cancels this index, the cancel closure performs no
network request and issues a warning. -/
theorem legacy_cancel_plan (deps : List Dependency) (fn_index : Nat) :
    ((∀ dep ∈ deps, fn_index ∉ dep.cancels) →
      (make_cancel_old deps fn_index).cancellable = false ∧
      (make_cancel_old deps fn_index).target_fn_index = none ∧
      (make_cancel_old deps fn_index).warns = true) ∧
    (∀ i, (make_cancel_old deps fn_index).target_fn_index = some i →
      (make_cancel_old deps fn_index).cancellable = true ∧
      (∃ dep, deps[i]? = some dep ∧ fn_index ∈ dep.cancels) ∧
      (∃ others, (i, others) ∈ cancel_candidates deps fn_index ∧
        ∀ p ∈ cancel_candidates deps fn_index,
          others.length ≤ p.2.length)) := by
  constructor
  · intro hnone
    have hnil : cancel_candidates deps fn_index = [] :=
      (cancel_candidates_from_nil_iff fn_index deps 0).mpr hnone
    simp [make_cancel_old, hnil]
  · intro i hi
    unfold make_cancel_old at hi
    cases hc : cancel_candidates deps fn_index with
    | nil => rw [hc] at hi; simp at hi
    | cons x xs =>
      rw [hc] at hi
      simp only [Option.some.injEq] at hi
      have hmem : pyMinByOthersLen x xs ∈ cancel_candidates deps fn_index := by
        rw [hc]; exact pyMinByOthersLen_mem xs x
      obtain ⟨k, dep, hg, hik, hmm, ho⟩ :=
        cancel_candidates_from_spec fn_index deps 0 _ hmem
      refine ⟨by simp [make_cancel_old, hc], ⟨dep, ?_, hmm⟩,
        ⟨(pyMinByOthersLen x xs).2, ?_, ?_⟩⟩
      · rw [← hi, hik]
        simpa using hg
      · rw [← hi]
        rw [hc] at hmem
        exact hmem
      · intro p hp
        refine pyMinByOthersLen_le xs x p ?_
        exact hp

/-- C9 witness: with the concrete dependency list, cancelling endpoint 0
targets dependency 2 (which cancels nothing else), a dependency that
indeed declares 0 in its `cancels` list. -/
theorem legacy_cancel_plan_witness :
    (make_cancel_old sampleDeps 0).target_fn_index = some 2 ∧
    ((make_cancel_old sampleDeps 0).cancellable = true ∧
     (∃ dep, sampleDeps[2]? = some dep ∧ 0 ∈ dep.cancels) ∧
     (∃ others, (2, others) ∈ cancel_candidates sampleDeps 0 ∧
       ∀ p ∈ cancel_candidates sampleDeps 0,
         others.length ≤ p.2.length)) :=
  ⟨by decide, (legacy_cancel_plan sampleDeps 0).2 2 (by decide)⟩

/-- Under the newest protocol the drain-close rule never fires. -/
theorem checkDrainClose_sse_v3 (s : StreamState) :
    checkDrainClose "sse_v3" s = .cont s := by
  unfold checkDrainClose
  rw [if_neg]
  simp

/-- C1: an id in the awaiting set is removed by a demultiplexer step
exactly when that step observes a message whose `msg` discriminator is
`process_completed`, not classified as server-stopped, carrying that id as
its `event_id`; no other message kind removes it, and no step ever adds
ids back (so along any run the id is removed exactly once, at the first
terminal message for it). -/
theorem terminal_removes_awaiting_id (protocol : String) (s : StreamState)
    (m : Msg) (id : String) (hmem : id ∈ s.pending_event_ids) :
    (id ∉ ((processMessage protocol s m).state).pending_event_ids ↔
      (m.msg = ServerMessage.process_completed ∧
        m.message.getD "" ≠ ServerMessage.server_stopped ∧
        m.event_id = some id)) ∧
    ((processMessage protocol s m).state).pending_event_ids ⊆
      s.pending_event_ids := by
  unfold processMessage
  by_cases h1 : m.msg = ServerMessage.heartbeat
  · rw [if_pos h1]
    refine ⟨⟨fun hno => absurd hmem hno, ?_⟩, Finset.Subset.refl _⟩
    rintro ⟨hpc, -, -⟩
    rw [h1] at hpc
    exact absurd hpc (by decide)
  · rw [if_neg h1]
    by_cases h2 : m.message.getD "" = ServerMessage.server_stopped
    · rw [if_pos h2]
      refine ⟨⟨fun hno => absurd hmem hno, ?_⟩, Finset.Subset.refl _⟩
      rintro ⟨-, hns, -⟩
      exact absurd h2 hns
    · rw [if_neg h2]
      by_cases h3 : m.msg = ServerMessage.close_stream
      · rw [if_pos h3]
        refine ⟨⟨fun hno => absurd hmem hno, ?_⟩, Finset.Subset.refl _⟩
        rintro ⟨hpc, -, -⟩
        rw [h3] at hpc
        exact absurd hpc (by decide)
      · rw [if_neg h3]
        cases he : m.event_id with
        | none =>
          refine ⟨⟨fun hno => absurd hmem hno, ?_⟩, Finset.Subset.refl _⟩
          rintro ⟨-, -, hei⟩
          cases hei
        | some eid =>
          simp only
          by_cases h4 : m.msg = ServerMessage.process_completed
          · rw [if_pos h4]
            by_cases h5 : eid ∈ s.pending_event_ids
            · rw [if_pos h5]
              rw [checkDrainClose_state_pending]
              constructor
              · constructor
                · intro hno
                  have hid : id = eid := by
                    by_contra hne
                    exact hno (Finset.mem_erase.mpr ⟨hne, hmem⟩)
                  exact ⟨h4, h2, by rw [hid]⟩
                · rintro ⟨-, -, hei⟩
                  rw [Option.some.injEq] at hei
                  rw [← hei]
                  exact Finset.not_mem_erase eid _
              · exact Finset.erase_subset _ _
            · rw [if_neg h5]
              refine ⟨⟨fun hno => absurd hmem hno, ?_⟩, Finset.Subset.refl _⟩
              rintro ⟨-, -, hei⟩
              rw [Option.some.injEq] at hei
              rw [← hei] at hmem
              exact absurd hmem h5
          · rw [if_neg h4]
            rw [checkDrainClose_state_pending]
            exact ⟨⟨fun hno => absurd hmem hno, fun hcnd => absurd hcnd.1 h4⟩,
              Finset.Subset.refl _⟩

/-- C1 witness: with one awaiting id `e1`, the terminal message for `e1`
removes it, and the step never enlarges the awaiting set. -/
theorem terminal_removes_awaiting_id_witness :
    "e1" ∈ sampleStreamState.pending_event_ids ∧
    ((("e1" : String) ∉
        ((processMessage "sse_v1" sampleStreamState
          terminalMsgE1).state).pending_event_ids ↔
      (terminalMsgE1.msg = ServerMessage.process_completed ∧
        terminalMsgE1.message.getD "" ≠ ServerMessage.server_stopped ∧
        terminalMsgE1.event_id = some "e1")) ∧
    ((processMessage "sse_v1" sampleStreamState
        terminalMsgE1).state).pending_event_ids ⊆
      sampleStreamState.pending_event_ids) :=
  ⟨by decide, terminal_removes_awaiting_id "sse_v1" sampleStreamState
    terminalMsgE1 "e1" (by decide)⟩

/-- C2: for protocols other than `sse_v3`, a delivered terminal message
that leaves the awaiting set empty makes the read loop return with
`stream_open` set to false; under `sse_v3` the loop only returns on a
record classified server-stopped (by its `message` field) or a
`close_stream` record, never merely because the awaiting set is empty. -/
theorem stream_termination_policy (protocol : String) (s : StreamState)
    (m : Msg) :
    ((protocol ≠ "sse_v3" →
      ∀ id, m.msg = ServerMessage.process_completed →
        m.message.getD "" ≠ ServerMessage.server_stopped →
        m.event_id = some id → id ∈ s.pending_event_ids →
        s.pending_event_ids.erase id = ∅ →
        ∃ s2, processMessage protocol s m = .ret s2 ∧
          s2.stream_open = false ∧ s2.pending_event_ids = ∅) ∧
    (protocol = "sse_v3" →
      ∀ s2, processMessage protocol s m = .ret s2 →
        m.message.getD "" = ServerMessage.server_stopped ∨
        m.msg = ServerMessage.close_stream)) := by
  constructor
  · intro hproto id hpc hns hev hmem hempty
    unfold processMessage
    have h1 : ¬m.msg = ServerMessage.heartbeat := by
      rw [hpc]; decide
    have h3 : ¬m.msg = ServerMessage.close_stream := by
      rw [hpc]; decide
    rw [if_neg h1, if_neg hns, if_neg h3, hev]
    simp only
    rw [if_pos hpc, if_pos hmem]
    unfold checkDrainClose
    rw [if_pos]
    · exact ⟨_, rfl, rfl, hempty⟩
    · exact ⟨hempty, hproto⟩
  · intro hproto s2 hret
    subst hproto
    unfold processMessage at hret
    by_cases h1 : m.msg = ServerMessage.heartbeat
    · rw [if_pos h1] at hret
      cases hret
    · rw [if_neg h1] at hret
      by_cases h2 : m.message.getD "" = ServerMessage.server_stopped
      · exact Or.inl h2
      · rw [if_neg h2] at hret
        by_cases h3 : m.msg = ServerMessage.close_stream
        · exact Or.inr h3
        · rw [if_neg h3] at hret
          exfalso
          cases he : m.event_id with
          | none =>
            rw [he] at hret
            cases hret
          | some eid =>
            rw [he] at hret
            simp only at hret
            by_cases h4 : m.msg = ServerMessage.process_completed
            · rw [if_pos h4] at hret
              by_cases h5 : eid ∈ s.pending_event_ids
              · rw [if_pos h5, checkDrainClose_sse_v3] at hret
                cases hret
              · rw [if_neg h5] at hret
                cases hret
            · rw [if_neg h4, checkDrainClose_sse_v3] at hret
              cases hret

/-- C2 witness: under `sse_v1` the terminal message for the only awaiting
id closes the stream, and under `sse_v3` a job message that empties the
awaiting set does not make the loop return. -/
theorem stream_termination_policy_witness :
    ("sse_v1" : String) ≠ "sse_v3" ∧
    (∃ s2, processMessage "sse_v1" sampleStreamState terminalMsgE1 =
        .ret s2 ∧ s2.stream_open = false ∧ s2.pending_event_ids = ∅) :=
  ⟨by decide, (stream_termination_policy "sse_v1" sampleStreamState
      terminalMsgE1).1 (by decide) "e1" rfl (by decide) rfl (by decide)
      (by decide)⟩

/-- C7 counterexample: a record whose `msg` discriminator is
`server_stopped` (with no `message` key) is NOT fanned out to the per-job
inboxes and does not close the stream: the code keys the server-stopped
classification on the `message` field, so this record falls through to the
job-message path and raises `KeyError` on the missing `event_id`, leaving
the single inbox untouched. -/
theorem server_stopped_msg_discriminator_no_fanout :
    processMessage "sse_v1" sampleStreamState serverStoppedByMsg =
      .exn sampleStreamState (.keyError "event_id") ∧
    ((processMessage "sse_v1" sampleStreamState
        serverStoppedByMsg).state).pending_messages_per_event =
      [("e1", [])] ∧
    ∀ s2, processMessage "sse_v1" sampleStreamState serverStoppedByMsg ≠
      .ret s2 := by
  have heq : processMessage "sse_v1" sampleStreamState serverStoppedByMsg =
      .exn sampleStreamState (.keyError "event_id") := by decide
  refine ⟨heq, by rw [heq]; rfl, ?_⟩
  intro s2 hret
  rw [heq] at hret
  cases hret

/-- C7 (amended): the demultiplexer classifies the server-stopped
condition by the `message` field of the record: any non-heartbeat record whose
`message` value equals `server_stopped` is appended to the buffered inbox
of every entry of `pending_messages_per_event`, and the read loop then
returns, ending the stream. -/
theorem server_stopped_fanout_on_message_field (protocol : String)
    (s : StreamState) (m : Msg) (h1 : m.msg ≠ ServerMessage.heartbeat)
    (h2 : m.message.getD "" = ServerMessage.server_stopped) :
    processMessage protocol s m =
      .ret { s with pending_messages_per_event :=
        (s.pending_messages_per_event.map
          (fun p => (p.1, p.2 ++ [some m]))) } := by
  unfold processMessage
  rw [if_neg h1, if_pos h2]

/-- C7 witness: a concrete record carrying `message = server_stopped` is
appended to the inbox of the single open job and the loop returns. -/
theorem server_stopped_fanout_on_message_field_witness :
    serverStoppedByMessageField.msg ≠ ServerMessage.heartbeat ∧
    serverStoppedByMessageField.message.getD "" =
      ServerMessage.server_stopped ∧
    processMessage "sse_v3" sampleStreamState serverStoppedByMessageField =
      .ret { sampleStreamState with pending_messages_per_event :=
        (sampleStreamState.pending_messages_per_event.map
          (fun p => (p.1, p.2 ++ [some serverStoppedByMessageField]))) } :=
  ⟨by decide, rfl, server_stopped_fanout_on_message_field "sse_v3"
    sampleStreamState serverStoppedByMessageField (by decide) rfl⟩

end GradioClient
